import Mathlib

/-!
Verification development for the memcache-rust client library.

The Rust sources are embedded shallowly: pure functions become Lean
functions, the byte stream a session reads from is passed explicitly as a
`List Char`, and the bytes an operation writes are returned alongside its
result.  Machine integers (`u16`, `u32`, `u64`) are modelled as `Nat` with
explicit bounds where overflow matters; fallible Rust code returns
`Except`/`Option`, and a Rust `panic!` is modelled as `Option.none`.
-/

namespace Memcache

/-! ### Error model, from src/src/error.rs -/

/-- ClientError (error.rs 9-13). -/
inductive ClientError where
  | keyTooLong
  | error (msg : String)
deriving DecidableEq, Repr

/-- ServerError (error.rs 30-35); the `io::Error` payload of `BadMagic` is a
byte, `BadResponse` and `Error` carry the offending text. -/
inductive ServerError where
  | badMagic (b : Nat)
  | badResponse (s : String)
  | error (msg : String)
deriving DecidableEq, Repr

/-- CommandError (error.rs 47-56). -/
inductive CommandError where
  | keyExists
  | keyNotFound
  | valueTooLarge
  | invalidArguments
  | authenticationRequired
  | unknown (code : Nat)
  | invalidCommand
deriving DecidableEq, Repr

/-- The conversion `impl From<u16> for CommandError` (error.rs 102-114).
The Rust match panics on status `0x0`; the panic is modelled as `none`. -/
def CommandError.fromStatus (status : Nat) : Option CommandError :=
  if status = 0x0 then none
  else if status = 0x1 then some CommandError.keyNotFound
  else if status = 0x2 then some CommandError.keyExists
  else if status = 0x3 then some CommandError.valueTooLarge
  else if status = 0x4 then some CommandError.invalidArguments
  else if status = 0x20 then some CommandError.authenticationRequired
  else some (CommandError.unknown status)

/-- ParseError (error.rs 128-135); the wrapped std error values are reduced
to their rendered messages. -/
inductive ParseError where
  | bool (msg : String)
  | int (msg : String)
  | float (msg : String)
  | string (msg : String)
  | url (msg : String)
deriving DecidableEq, Repr

/-- MemcacheError (error.rs 186-203), without the `tls`-feature variants;
the `io::Error` payload is reduced to its rendered message. -/
inductive MemcacheError where
  | ioError (msg : String)
  | clientError (e : ClientError)
  | serverError (e : ServerError)
  | commandError (e : CommandError)
  | parseError (e : ParseError)
deriving DecidableEq, Repr

/-! ### Rust `str` operations used by the protocol code

`str::starts_with`, `str::split(" ")`, `str::trim_end_matches("\r\n")`,
`str::trim_start_matches("VERSION ")` and `u32`/`u64`/`usize` decimal
parsing are modelled over the character list of the string. -/

/-- Rust `str::starts_with`: prefix test on the character sequence. -/
def strStartsWith (s p : String) : Bool :=
  p.data.isPrefixOf s.data

/-- Helper for `splitSpace`: accumulates the current piece (reversed). -/
def splitSpaceAux (acc : List Char) : List Char → List String
  | [] => [String.mk acc.reverse]
  | c :: rest =>
    if c = ' ' then String.mk acc.reverse :: splitSpaceAux [] rest
    else splitSpaceAux (c :: acc) rest

/-- Rust `str::split(" ")`: splits at every single space, keeping empty
pieces, as an explicit list. -/
def splitSpace (s : String) : List String :=
  splitSpaceAux [] s.data

/-- Helper for `trimEndCrlf`: removes leading reversed `"\r\n"` pairs. -/
def trimCrlfRev : List Char → List Char
  | '\n' :: '\r' :: rest => trimCrlfRev rest
  | l => l

/-- Rust `str::trim_end_matches("\r\n")`: repeatedly removes a trailing
carriage-return / line-feed pair. -/
def trimEndCrlf (s : String) : String :=
  String.mk (trimCrlfRev s.data.reverse).reverse

/-- Rust `str::trim_start_matches("VERSION ")`: repeatedly removes the
leading marker, on the character list. -/
def trimStartVersionList : List Char → List Char
  | 'V' :: 'E' :: 'R' :: 'S' :: 'I' :: 'O' :: 'N' :: ' ' :: rest =>
    trimStartVersionList rest
  | l => l

/-- Rust `str::trim_start_matches("VERSION ")` on strings. -/
def trimStartVersion (s : String) : String :=
  String.mk (trimStartVersionList s.data)

/-- Rust `str::trim_start_matches(p)` for a nonempty pattern `p`:
repeatedly removes a leading occurrence of `p` from the character list. -/
def trimStartMatchesList (p : List Char) (l : List Char) : List Char :=
  if h : p ≠ [] ∧ p.isPrefixOf l then trimStartMatchesList p (l.drop p.length)
  else l
termination_by l.length
decreasing_by
  have hle : p.length ≤ l.length := by
    have hpre : p <+: l := by
      rw [← List.isPrefixOf_iff_prefix]
      exact h.2
    exact hpre.length_le
  have hpos : 0 < p.length := List.length_pos.mpr h.1
  simp only [List.length_drop]
  omega

/-- Rust `str::trim_start_matches(p)` on strings. -/
def trimStartMatches (p : String) (s : String) : String :=
  String.mk (trimStartMatchesList p.data s.data)

/-- Decimal digit accumulation for `parseUInt`. -/
def digitsToNat (cs : List Char) : Nat :=
  cs.foldl (fun acc c => acc * 10 + (c.toNat - 48)) 0

/-- Rust unsigned integer `FromStr`: an optional leading `+`, then at least
one decimal digit, and the value must fit the type (overflow is an error,
modelled as `none`). `bound` is the maximal value of the integer type. -/
def parseUInt (bound : Nat) (s : String) : Option Nat :=
  let cs :=
    match s.data with
    | '+' :: rest => rest
    | cs => cs
  if cs.isEmpty then none
  else if cs.all Char.isDigit then
    let n := digitsToNat cs
    if n ≤ bound then some n else none
  else none

/-- Rust `str::parse::<u32>`. -/
def parseU32 (s : String) : Option Nat := parseUInt (2 ^ 32 - 1) s

/-- Rust `str::parse::<u64>`. -/
def parseU64 (s : String) : Option Nat := parseUInt (2 ^ 64 - 1) s

/-- Rust `str::parse::<usize>` on the 64-bit targets the crate supports. -/
def parseUsize (s : String) : Option Nat := parseUInt (2 ^ 64 - 1) s

/-- `MemcacheError::try_from(String)` (error.rs 59-74): classifies a reply
line, turning the recognized error lines into the matching error variant and
returning any other line unchanged. -/
def MemcacheError.tryFrom (s : String) : Except MemcacheError String :=
  if s = "ERROR\r\n" then
    Except.error (MemcacheError.commandError CommandError.invalidCommand)
  else if strStartsWith s "CLIENT_ERROR" then
    Except.error (MemcacheError.clientError (ClientError.error s))
  else if strStartsWith s "SERVER_ERROR" then
    Except.error (MemcacheError.serverError (ServerError.error s))
  else if s = "NOT_FOUND\r\n" then
    Except.error (MemcacheError.commandError CommandError.keyNotFound)
  else if s = "EXISTS\r\n" then
    Except.error (MemcacheError.commandError CommandError.keyExists)
  else
    Except.ok s

/-! ### Byte-stream reading

The session reads from a `BufReader` over the transport.  The unread part
of the stream is a `List Char` (one `Char` per byte; the protocol text is
ASCII). -/

/-- Helper for `readLine`: consumes characters up to and including the
first line feed, accumulating them reversed. -/
def readLineAux (acc : List Char) : List Char → List Char × List Char
  | [] => (acc.reverse, [])
  | c :: rest =>
    if c = '\n' then ((c :: acc).reverse, rest)
    else readLineAux (c :: acc) rest

/-- `BufRead::read_line`: reads up to and including the first line feed; at
the end of the stream it returns the empty string.  Returns the line and
the remaining stream. -/
def readLine (w : List Char) : String × List Char :=
  let p := readLineAux [] w
  (String.mk p.1, p.2)

/-- `Read::read_exact` into a buffer of `n` bytes: `none` models the I/O
error raised when the stream ends early. -/
def readExact (n : Nat) (w : List Char) : Option (String × List Char) :=
  if n ≤ w.length then some (String.mk (w.take n), w.drop n) else none

/-- Modelled from the spec: `ResponseStatus` lives in src/src/protocol/mod.rs,
which is not under src/; spec section 4.3.2 fixes the status values
`0x0001 -> KeyNotFound` and `0x0002 -> KeyExists`, matching the
`From<u16> for CommandError` table in error.rs. -/
inductive ResponseStatus where
  | keyNotFound
  | keyExists
deriving DecidableEq, Repr

/-- The `as u16` value of a `ResponseStatus` (spec section 4.3.2). -/
def ResponseStatus.toU16 : ResponseStatus → Nat
  | ResponseStatus.keyNotFound => 0x1
  | ResponseStatus.keyExists => 0x2

namespace Ascii

/-!
The text-protocol session, from src/src/protocol/ascii.rs.

ascii.rs belongs to an earlier revision of the crate than error.rs: it
builds `MemcacheError::ClientError(String)` and `MemcacheError::ServerError(u16)`
values (ascii.rs 58, 116) and `cas` matches a converted status against
`MemcacheError::ServerError(e)` with a numeric `e` (ascii.rs 258).  That
revision of the error enum is not under src/, so it is reconstructed here
from those usage sites and from the spec's error taxonomy (section 7).
-/

/-- The error enum as used by ascii.rs and connection.rs: client errors and
parse failures carry their message, server status codes are numeric
(`ServerError(u16)`), and reply error lines map per spec section 7 to an
invalid-command error or a message-carrying client/server error. -/
inductive MemcacheError where
  | ioError
  | parseError
  | clientError (msg : String)
  | serverStatus (code : Nat)
  | serverError (msg : String)
  | invalidCommand
deriving DecidableEq, Repr

/-- Modelled from the spec: `impl From<u16> for MemcacheError` of the
ascii.rs-era error enum is not under src/.  `cas` (ascii.rs 256-264) matches
the converted value against `MemcacheError::ServerError(e)` with a numeric
status, so the conversion wraps the status code in the numeric server-error
variant. -/
def MemcacheError.fromStatus (code : Nat) : MemcacheError :=
  MemcacheError.serverStatus code

/-- Modelled from the spec: `impl From<String> for MemcacheError` of the
ascii.rs-era error enum is not under src/.  Spec section 4.3.1 requires the
parser to map the line `ERROR\r\n` to the invalid-command error and lines
starting with `CLIENT_ERROR` / `SERVER_ERROR` to a client / server error
carrying the message, exactly as `MemcacheError::try_from` (error.rs 59-74)
does for those lines. -/
def MemcacheError.fromLine (s : String) : MemcacheError :=
  if s = "ERROR\r\n" then MemcacheError.invalidCommand
  else if strStartsWith s "CLIENT_ERROR" then MemcacheError.clientError s
  else if strStartsWith s "SERVER_ERROR" then MemcacheError.serverError s
  else MemcacheError.clientError s

/-- `is_memcache_error` (ascii.rs 428-430). -/
def is_memcache_error (s : String) : Bool :=
  s == "ERROR\r\n" || strStartsWith s "CLIENT_ERROR" || strStartsWith s "SERVER_ERROR"

/-- Options (ascii.rs 11-17), with the `Default` field values. -/
structure Options where
  noreply : Bool := false
  exptime : Nat := 0
  flags : Nat := 0
  cas : Option Nat := none
deriving DecidableEq, Repr

/-- StoreCommand (ascii.rs 19-27). -/
inductive StoreCommand where
  | cas
  | set
  | add
  | replace
  | append
  | prepend
deriving DecidableEq, Repr

/-- The `Display` rendering of a StoreCommand (ascii.rs 29-40). -/
def StoreCommand.render : StoreCommand → String
  | StoreCommand.set => "set"
  | StoreCommand.add => "add"
  | StoreCommand.replace => "replace"
  | StoreCommand.append => "append"
  | StoreCommand.prepend => "prepend"
  | StoreCommand.cas => "cas"

/-- Modelled from the spec: a value implementing `ToMemcacheValue`
(src/src/value.rs is not under src/).  Per spec section 6 the value adapter
supplies the payload bytes and a 32-bit flags word; `get_flags` returns the
flags, `get_length` the byte length of the payload, and `write_to` writes
exactly the payload bytes. -/
structure MValue where
  bytes : String
  flags : Nat
deriving DecidableEq, Repr

/-- `ToMemcacheValue::get_flags`. -/
def MValue.getFlags (v : MValue) : Nat := v.flags

/-- `ToMemcacheValue::get_length`: the byte length of the payload. -/
def MValue.getLength (v : MValue) : Nat := v.bytes.utf8ByteSize

/-- `ToMemcacheValue::write_to`: the bytes written for the payload. -/
def MValue.writeTo (v : MValue) : String := v.bytes

/-- `AsciiProtocol::store` (ascii.rs 50-106).  `w` is the byte stream the
session can read; the result pairs the bytes written to the transport with
the value the Rust function returns. -/
def store (command : StoreCommand) (key : String) (value : MValue)
    (options : Options) (w : List Char) : String × Except MemcacheError Bool :=
  if key.utf8ByteSize > 250 then
    ("", Except.error (MemcacheError.clientError "key is too long"))
  else
    let afterCasCheck := fun (casPart : String) =>
      let written := command.render ++ " " ++ key ++ " " ++ toString value.getFlags
        ++ " " ++ toString options.exptime ++ " " ++ toString value.getLength
        ++ casPart ++ (if options.noreply then " noreply" else "") ++ "\r\n"
        ++ value.writeTo ++ "\r\n"
      if options.noreply then (written, Except.ok true)
      else
        let s := (readLine w).1
        (written,
          if is_memcache_error s then Except.error (MemcacheError.fromLine s)
          else if s = "STORED\r\n" then Except.ok true
          else if s = "NOT_STORED\r\n" then Except.ok false
          else if s = "EXISTS\r\n" then
            Except.error (MemcacheError.fromStatus ResponseStatus.keyExists.toU16)
          else if s = "NOT_FOUND\r\n" then
            Except.error (MemcacheError.fromStatus ResponseStatus.keyNotFound.toU16)
          else Except.error (MemcacheError.clientError "invalid server response"))
    match command, options.cas with
    | StoreCommand.cas, none =>
      ("", Except.error (MemcacheError.clientError "cas command should have a casid"))
    | StoreCommand.cas, some c => afterCasCheck (" " ++ toString c)
    | _, _ => afterCasCheck ""

/-- The reply-line interpretation of `store` (ascii.rs 91-105) as a
function of the line read, named so the store theorems can quote it. -/
def storeReply (s : String) : Except MemcacheError Bool :=
  if is_memcache_error s then Except.error (MemcacheError.fromLine s)
  else if s = "STORED\r\n" then Except.ok true
  else if s = "NOT_STORED\r\n" then Except.ok false
  else if s = "EXISTS\r\n" then
    Except.error (MemcacheError.fromStatus ResponseStatus.keyExists.toU16)
  else if s = "NOT_FOUND\r\n" then
    Except.error (MemcacheError.fromStatus ResponseStatus.keyNotFound.toU16)
  else Except.error (MemcacheError.clientError "invalid server response")

/-- `AsciiProtocol::cas` (ascii.rs 244-265). -/
def cas (key : String) (value : MValue) (expiration : Nat) (casid : Nat)
    (w : List Char) : String × Except MemcacheError Bool :=
  let options : Options := { exptime := expiration, cas := some casid }
  let p := store StoreCommand.cas key value options w
  (p.1,
    match p.2 with
    | Except.error (MemcacheError.serverStatus e) =>
      if e = ResponseStatus.keyExists.toU16 || e = ResponseStatus.keyNotFound.toU16 then
        Except.ok false
      else Except.error (MemcacheError.serverStatus e)
    | other => other)

/-- `AsciiProtocol::set` (ascii.rs 267-278). -/
def set (key : String) (value : MValue) (expiration : Nat) (w : List Char) :
    String × Except MemcacheError Unit :=
  let p := store StoreCommand.set key value { exptime := expiration } w
  (p.1, p.2.map fun _ => ())

/-- `AsciiProtocol::add` (ascii.rs 280-291). -/
def add (key : String) (value : MValue) (expiration : Nat) (w : List Char) :
    String × Except MemcacheError Unit :=
  let p := store StoreCommand.add key value { exptime := expiration } w
  (p.1, p.2.map fun _ => ())

/-- `AsciiProtocol::replace` (ascii.rs 293-304). -/
def replace (key : String) (value : MValue) (expiration : Nat) (w : List Char) :
    String × Except MemcacheError Unit :=
  let p := store StoreCommand.replace key value { exptime := expiration } w
  (p.1, p.2.map fun _ => ())

/-- `AsciiProtocol::append` (ascii.rs 306-312). -/
def append (key : String) (value : MValue) (w : List Char) :
    String × Except MemcacheError Unit :=
  if key.utf8ByteSize > 250 then
    ("", Except.error (MemcacheError.clientError "key is too long"))
  else
    let p := store StoreCommand.append key value {} w
    (p.1, p.2.map fun _ => ())

/-- `AsciiProtocol::prepend` (ascii.rs 314-320). -/
def prepend (key : String) (value : MValue) (w : List Char) :
    String × Except MemcacheError Unit :=
  if key.utf8ByteSize > 250 then
    ("", Except.error (MemcacheError.clientError "key is too long"))
  else
    let p := store StoreCommand.prepend key value {} w
    (p.1, p.2.map fun _ => ())

/-- `AsciiProtocol::delete` (ascii.rs 322-339). -/
def delete (key : String) (w : List Char) : String × Except MemcacheError Bool :=
  if key.utf8ByteSize > 250 then
    ("", Except.error (MemcacheError.clientError "key is too long"))
  else
    let written := "delete " ++ key ++ "\r\n"
    let s := (readLine w).1
    (written,
      if is_memcache_error s then Except.error (MemcacheError.fromLine s)
      else if s = "DELETED\r\n" then Except.ok true
      else if s = "NOT_FOUND\r\n" then Except.ok false
      else Except.error (MemcacheError.clientError "invalid server response"))

/-- `AsciiProtocol::increment` (ascii.rs 341-358). -/
def increment (key : String) (amount : Nat) (w : List Char) :
    String × Except MemcacheError Nat :=
  if key.utf8ByteSize > 250 then
    ("", Except.error (MemcacheError.clientError "key is too long"))
  else
    let written := "incr " ++ key ++ " " ++ toString amount ++ "\r\n"
    let s := (readLine w).1
    (written,
      if is_memcache_error s then Except.error (MemcacheError.fromLine s)
      else if s = "NOT_FOUND\r\n" then Except.error (MemcacheError.fromStatus 1)
      else
        match parseU64 (trimEndCrlf s) with
        | some n => Except.ok n
        | none => Except.error (MemcacheError.clientError "invalid server response"))

/-- `AsciiProtocol::decrement` (ascii.rs 360-377). -/
def decrement (key : String) (amount : Nat) (w : List Char) :
    String × Except MemcacheError Nat :=
  if key.utf8ByteSize > 250 then
    ("", Except.error (MemcacheError.clientError "key is too long"))
  else
    let written := "decr " ++ key ++ " " ++ toString amount ++ "\r\n"
    let s := (readLine w).1
    (written,
      if is_memcache_error s then Except.error (MemcacheError.fromLine s)
      else if s = "NOT_FOUND\r\n" then Except.error (MemcacheError.fromStatus 1)
      else
        match parseU64 (trimEndCrlf s) with
        | some n => Except.ok n
        | none => Except.error (MemcacheError.clientError "invalid server response"))

/-- `AsciiProtocol::touch` (ascii.rs 379-396). -/
def touch (key : String) (expiration : Nat) (w : List Char) :
    String × Except MemcacheError Bool :=
  if key.utf8ByteSize > 250 then
    ("", Except.error (MemcacheError.clientError "key is too long"))
  else
    let written := "touch " ++ key ++ " " ++ toString expiration ++ "\r\n"
    let s := (readLine w).1
    (written,
      if is_memcache_error s then Except.error (MemcacheError.fromLine s)
      else if s = "TOUCHED\r\n" then Except.ok true
      else if s = "NOT_FOUND\r\n" then Except.ok false
      else Except.error (MemcacheError.clientError "invalid server response"))

/-- `AsciiProtocol::get` (ascii.rs 153-194).  There is no key-length check:
the request line is written unconditionally.  The result is the raw
`(payload, flags)` pair handed to `from_memcache_value`. -/
def get (key : String) (w : List Char) :
    String × Except MemcacheError (Option (String × Nat)) :=
  let s := (readLine w).1
  let w1 := (readLine w).2
  ("get " ++ key ++ "\r\n",
    if is_memcache_error s then Except.error (MemcacheError.fromLine s)
    else if strStartsWith s "END" then Except.ok none
    else if ¬ strStartsWith s "VALUE" then
      Except.error (MemcacheError.clientError "invalid server response")
    else
      let header := splitSpace (trimEndCrlf s)
      if header.length ≠ 4 then
        Except.error (MemcacheError.clientError "invalid server response")
      else if key ≠ header.getD 1 "" then
        Except.error (MemcacheError.clientError "invalid server response")
      else
        match parseU32 (header.getD 2 ""), parseUsize (header.getD 3 "") with
        | some flags, some length =>
          match readExact length w1 with
          | none => Except.error MemcacheError.ioError
          | some (buffer, w2) =>
            let s2 := (readLine w2).1
            let w3 := (readLine w2).2
            if s2 ≠ "\r\n" then
              Except.error (MemcacheError.clientError "invalid server response")
            else
              let s3 := (readLine w3).1
              if s3 ≠ "END\r\n" then
                Except.error (MemcacheError.clientError "invalid server response")
              else Except.ok (some (buffer, flags))
        | _, _ => Except.error MemcacheError.parseError)

/-- The loop body of `AsciiProtocol::gets` (ascii.rs 203-239).  Each
iteration reads a `VALUE` header, the payload, and the trailing CRLF, and
accumulates `(key, payload, flags, cas)` entries in read order (the Rust
code inserts them into a `HashMap`). -/
def getsLoop (w : List Char) (acc : List (String × String × Nat × Nat)) :
    Except MemcacheError (List (String × String × Nat × Nat)) :=
  let s := (readLine w).1
  let w1 := (readLine w).2
  if is_memcache_error s then Except.error (MemcacheError.fromLine s)
  else if strStartsWith s "END" then Except.ok acc.reverse
  else if hv : ¬ strStartsWith s "VALUE" then
    Except.error (MemcacheError.clientError "invalid server response")
  else
    let header := splitSpace (trimEndCrlf s)
    if header.length ≠ 5 then
      Except.error (MemcacheError.clientError "invalid server response")
    else
      match parseU32 (header.getD 2 ""), parseUsize (header.getD 3 ""),
          parseU64 (header.getD 4 "") with
      | some flags, some length, some casid =>
        match hre : readExact length w1 with
        | none => Except.error MemcacheError.ioError
        | some (buffer, w2) =>
          let s2 := (readLine w2).1
          let w3 := (readLine w2).2
          if s2 ≠ "\r\n" then
            Except.error (MemcacheError.clientError "invalid server response")
          else getsLoop w3 ((header.getD 1 "", buffer, flags, casid) :: acc)
      | _, _, _ => Except.error MemcacheError.parseError
termination_by w.length
decreasing_by
  have aux : ∀ (acc ww : List Char), (readLineAux acc ww).2.length ≤ ww.length := by
    intro acc ww
    induction ww generalizing acc with
    | nil => simp [readLineAux]
    | cons c rest ih =>
      by_cases h : c = '\n'
      · simp [readLineAux, h]
      · simpa [readLineAux, h] using Nat.le_succ_of_le (ih (c :: acc))
  have hlt : ∀ (ww : List Char), ww ≠ [] → (readLine ww).2.length < ww.length := by
    intro ww hww
    cases ww with
    | nil => exact absurd rfl hww
    | cons c rest =>
      by_cases h : c = '\n'
      · simp [readLine, readLineAux, h]
      · simp only [readLine, readLineAux, h, if_false]
        exact Nat.lt_succ_of_le (aux (c :: []) rest)
  have hre2 : w2.length ≤ (readLine w).2.length := by
    unfold readExact at hre
    by_cases hn : length ≤ (readLine w).2.length
    · simp only [hn, if_true, Option.some.injEq, Prod.mk.injEq] at hre
      rw [← hre.2]
      simp
    · simp [hn] at hre
  have hw : w ≠ [] := by
    intro hww
    rw [not_not] at hv
    subst hww
    exact absurd hv (by decide)
  calc (readLine w2).2.length
      ≤ w2.length := aux [] w2
    _ ≤ (readLine w).2.length := hre2
    _ < w.length := hlt w hw

/-- `AsciiProtocol::gets` (ascii.rs 196-242): writes the pipelined request
and parses `VALUE` blocks until `END`. -/
def gets (keys : List String) (w : List Char) :
    String × Except MemcacheError (List (String × String × Nat × Nat)) :=
  ("gets " ++ String.intercalate " " keys ++ "\r\n", getsLoop w [])

/-- `AsciiProtocol::version` (ascii.rs 108-122). -/
def version (w : List Char) : String × Except MemcacheError String :=
  let written := "version\r\n"
  let s := (readLine w).1
  (written,
    if is_memcache_error s then Except.error (MemcacheError.fromLine s)
    else if ¬ strStartsWith s "VERSION" then Except.error (MemcacheError.serverStatus 0)
    else Except.ok (trimEndCrlf (trimStartVersion s)))

/-- `AsciiProtocol::flush` (ascii.rs 124-138). -/
def flush (w : List Char) : String × Except MemcacheError Unit :=
  let written := "flush_all\r\n"
  let s := (readLine w).1
  (written,
    if is_memcache_error s then Except.error (MemcacheError.fromLine s)
    else if s ≠ "OK\r\n" then Except.error (MemcacheError.clientError "invalid server response")
    else Except.ok ())

/-- `AsciiProtocol::flush_with_delay` (ascii.rs 140-151). -/
def flushWithDelay (delay : Nat) (w : List Char) : String × Except MemcacheError Unit :=
  let written := "flush_all " ++ toString delay ++ "\r\n"
  let s := (readLine w).1
  (written,
    if is_memcache_error s then Except.error (MemcacheError.fromLine s)
    else if s ≠ "OK\r\n" then Except.error (MemcacheError.clientError "invalid server response")
    else Except.ok ())

/-- The loop body of `AsciiProtocol::stats` (ascii.rs 403-422).  Each
iteration reads one `STAT <name> <value>` line and accumulates
`(name, value)` entries in read order (the Rust code inserts them into a
`HashMap`); `value` is the raw line with the leading `STAT <name>`
trimmed, as in the source. -/
def statsLoop (w : List Char) (acc : List (String × String)) :
    Except MemcacheError (List (String × String)) :=
  let s := (readLine w).1
  let w1 := (readLine w).2
  if is_memcache_error s then Except.error (MemcacheError.fromLine s)
  else if strStartsWith s "END" then Except.ok acc.reverse
  else if hv : ¬ strStartsWith s "STAT" then
    Except.error (MemcacheError.clientError "invalid server response")
  else
    let stat := splitSpace (trimEndCrlf s)
    if stat.length < 3 then
      Except.error (MemcacheError.clientError "invalid server response")
    else
      let key := stat.getD 1 ""
      let value := trimStartMatches ("STAT " ++ key) s
      statsLoop w1 ((key, value) :: acc)
termination_by w.length
decreasing_by
  have hw : w ≠ [] := by
    intro hww
    rw [not_not] at hv
    subst hww
    exact absurd hv (by decide)
  cases w with
  | nil => exact absurd rfl hw
  | cons c rest =>
    by_cases h : c = '\n'
    · simp [readLine, readLineAux, h]
    · simp only [readLine, readLineAux, h, if_false]
      have aux : ∀ (acc ww : List Char), (readLineAux acc ww).2.length ≤ ww.length := by
        intro acc ww
        induction ww generalizing acc with
        | nil => simp [readLineAux]
        | cons d rest2 ih =>
          by_cases hd : d = '\n'
          · simp [readLineAux, hd]
          · simpa [readLineAux, hd] using Nat.le_succ_of_le (ih (d :: acc))
      exact Nat.lt_succ_of_le (aux (c :: []) rest)

/-- `AsciiProtocol::stats` (ascii.rs 398-425): writes the request, then
parses `STAT` lines until `END`. -/
def stats (w : List Char) : String × Except MemcacheError (List (String × String)) :=
  ("stats\r\n", statsLoop w [])

/-- `AsciiProtocol::auth` (ascii.rs 46-48): delegates to `set` with the key
`auth` and the value `<username> <password>`; a String value carries
`flags = 0` per the value-adapter convention of spec section 6. -/
def auth (username password : String) (w : List Char) :
    String × Except MemcacheError Unit :=
  set "auth" (MValue.mk (username ++ " " ++ password) 0) 0 w

end Ascii

namespace Conn

/-!
The transport layer, from src/src/connection.rs, on a unix platform (the
`cfg(unix)` branch is compiled in; the crate's own tests connect to unix
sockets).  Each `Stream` variant is reduced to the state the claims are
about: the configured read and write timeouts of a TCP stream; UDP and unix
streams carry no timeout state because their setters are no-ops.
-/

/-- Stream (connection.rs 13-18) with the timeout configuration of each
variant.  `none` is "no timeout", mirroring `Option<Duration>` (durations
are whole seconds here). -/
inductive Stream where
  | tcpStream (readTimeout writeTimeout : Option Nat)
  | udpSocket
  | unixStream
deriving DecidableEq, Repr

/-- `Connection::set_read_timeout` (connection.rs 83-88): only the TCP
variant is touched. -/
def set_read_timeout (s : Stream) (timeout : Option Nat) : Stream :=
  match s with
  | Stream.tcpStream _ w => Stream.tcpStream timeout w
  | other => other

/-- `Connection::set_write_timeout` (connection.rs 90-95): only the TCP
variant is touched. -/
def set_write_timeout (s : Stream) (timeout : Option Nat) : Stream :=
  match s with
  | Stream.tcpStream r _ => Stream.tcpStream r timeout
  | other => other

/-- A parsed URL as `Connection::connect` consumes it: scheme, host
(`some ""` is `Host::Domain("")`), port, path and the query pairs.  The URL
parser itself is an external collaborator (spec section 1). -/
structure Url where
  scheme : String
  host : Option String
  port : Option Nat
  path : String
  queryPairs : List (String × String)
deriving DecidableEq, Repr

/-- The transport `Connection::connect` selects: UDP datagram, unix-domain
stream, or TCP with the applied nodelay flag and the timeout (read and
write) taken from the `timeout` query parameter. -/
inductive Transport where
  | udp
  | unixSock
  | tcp (nodelay : Bool) (timeout : Option Nat)
deriving DecidableEq, Repr

/-- `Connection::connect` (connection.rs 27-81) on an already-parsed URL,
with the I/O constructors (`UdpStream::new`, `UnixStream::connect`,
`TcpStream::connect`) abstracted to their success path: the function
decides which transport the connection uses, or returns the error raised
before any I/O.  (On a parse failure the Rust code returns the client error
`Invalid memcache URL`; that branch consumes no parsed URL.) -/
def connect (addr : Url) : Except Ascii.MemcacheError Transport :=
  if addr.scheme ≠ "memcache" then
    Except.error (Ascii.MemcacheError.clientError "memcache URL should start with memcache://")
  else
    let is_udp := addr.queryPairs.any fun p => p.1 == "udp" && p.2 == "true"
    if is_udp then Except.ok Transport.udp
    else if addr.host = some "" ∧ addr.port = none then Except.ok Transport.unixSock
    else
      let disable_tcp_nodelay := addr.queryPairs.any fun p =>
        p.1 == "tcp_nodelay" && p.2 == "false"
      let timeout := (addr.queryPairs.find? fun p => p.1 == "timeout").bind
        fun p => parseU64 p.2
      Except.ok (Transport.tcp (!disable_tcp_nodelay) timeout)

end Conn

/-!
The client facade, from src/src/client.rs.  This file belongs to the newer
crate revision: connections are r2d2 pools of `Protocol` sessions.  The
pool machinery is an external collaborator; what the claims are about is
the routing arithmetic (`hash_key`, `get_connection`), the per-connection
grouping of batch operations, and the timeout setters.
-/

/-- The `Protocol` variant tag a pooled session carries (client.rs matches
`Protocol::Ascii` / `Protocol::Binary`). -/
inductive ProtocolKind where
  | ascii
  | binary
deriving DecidableEq, Repr

/-- One pooled connection as `set_read_timeout`/`set_write_timeout` see it:
its protocol variant and the stream of its transport. -/
structure PooledConn where
  protocol : ProtocolKind
  stream : Conn.Stream
deriving DecidableEq, Repr

/-- One connection pool (client.rs keeps a `Vec<Pool<ConnectionManager>>`,
one pool per server URL); the pool internals are external collaborators. -/
structure Pool where
  url : String
deriving DecidableEq, Repr

/-- Client (client.rs 49-53): the ordered pool list and the pluggable hash
function.  The hash is an `fn(&str) -> u64`, so its values are below
`2 ^ 64`; `as usize` is the identity on the 64-bit targets the crate
supports. -/
structure Client where
  connections : List Pool
  hashFunction : String → Nat

/-- `Client::hash_key` (client.rs 193-196). -/
def Client.hash_key (c : Client) (key : String) : Nat :=
  c.hashFunction key % c.connections.length

/-- `Client::get_connection` (client.rs 89-92); `none` models the panic on
an empty pool list (index out of bounds after a modulo by zero). -/
def Client.get_connection (c : Client) (key : String) : Option Pool :=
  c.connections.get? (c.hashFunction key % c.connections.length)

/-- `Client::set_write_timeout` (client.rs 121-130): for every pooled
connection, the `Protocol::Ascii` arm calls `set_read_timeout` on the
session's stream and the `Protocol::Binary` arm calls `set_write_timeout`. -/
def Client.set_write_timeout (conns : List PooledConn) (timeout : Option Nat) :
    List PooledConn :=
  conns.map fun c =>
    match c.protocol with
    | ProtocolKind.ascii => { c with stream := Conn.set_read_timeout c.stream timeout }
    | ProtocolKind.binary => { c with stream := Conn.set_write_timeout c.stream timeout }

/-- `Client::set_read_timeout` (client.rs 102-111): both protocol arms call
`set_read_timeout`. -/
def Client.set_read_timeout (conns : List PooledConn) (timeout : Option Nat) :
    List PooledConn :=
  conns.map fun c =>
    match c.protocol with
    | ProtocolKind.ascii => { c with stream := Conn.set_read_timeout c.stream timeout }
    | ProtocolKind.binary => { c with stream := Conn.set_read_timeout c.stream timeout }

/-- `con_keys.entry(i).or_default().push(k)` (client.rs 218, 394) on an
association list: append `k` to the bucket for `i`, creating the bucket at
the end on first use.  A `HashMap` iterates its buckets in an unspecified
order; the association list keeps them in first-insertion order, one of the
admissible orders. -/
def pushEntry (m : List (Nat × List String)) (i : Nat) (k : String) :
    List (Nat × List String) :=
  match m with
  | [] => [(i, [k])]
  | (j, l) :: rest =>
    if j = i then (j, l ++ [k]) :: rest
    else (j, l) :: pushEntry rest i k

/-- The per-connection grouping loop shared by `Client::gets`
(client.rs 217-219) and `Client::deletes` (client.rs 393-395). -/
def Client.groupKeys (c : Client) (keys : List String) : List (Nat × List String) :=
  keys.foldl (fun m k => pushEntry m (c.hash_key k) k) []

/-- A concrete 251-byte key, used to exercise the key-length limit. -/
def longKey : String := String.mk (List.replicate 251 'a')

/-! ### Helper lemmas -/

/-- Two strings starting with prefixes of different head characters differ;
here: a line starting with `SERVER_ERROR` does not start with
`CLIENT_ERROR`. -/
theorem server_line_not_client {s : String}
    (h : strStartsWith s "SERVER_ERROR" = true) :
    strStartsWith s "CLIENT_ERROR" = false := by
  unfold strStartsWith at h ⊢
  rw [List.isPrefixOf_iff_prefix] at h
  by_contra hc
  rw [Bool.not_eq_false, List.isPrefixOf_iff_prefix] at hc
  obtain ⟨t, ht⟩ := h
  rw [← ht] at hc
  have h2 : ('C' :: "LIENT_ERROR".data) <+: ('S' :: ("ERVER_ERROR".data ++ t)) := hc
  exact absurd (List.cons_prefix_cons.mp h2).1 (by decide)

/-- A line starting with `CLIENT_ERROR` is not the line `ERROR\r\n`. -/
theorem client_line_ne_error {s : String}
    (h : strStartsWith s "CLIENT_ERROR" = true) : s ≠ "ERROR\r\n" := by
  intro he
  subst he
  exact absurd h (by decide)

/-- A line starting with `SERVER_ERROR` is not the line `ERROR\r\n`. -/
theorem server_line_ne_error {s : String}
    (h : strStartsWith s "SERVER_ERROR" = true) : s ≠ "ERROR\r\n" := by
  intro he
  subst he
  exact absurd h (by decide)

/-! ### Claim C5 -/

/-- Claim C5: for every nonzero 16-bit status code `s`, the `From<u16>`
conversion yields KeyNotFound for 0x0001, KeyExists for 0x0002,
ValueTooLarge for 0x0003, InvalidArguments for 0x0004,
AuthenticationRequired for 0x0020, and Unknown(s) for every other nonzero
status. -/
theorem c5_status_code_mapping (s : Nat) (h0 : s ≠ 0) (h16 : s < 2 ^ 16) :
    CommandError.fromStatus 0x1 = some CommandError.keyNotFound ∧
    CommandError.fromStatus 0x2 = some CommandError.keyExists ∧
    CommandError.fromStatus 0x3 = some CommandError.valueTooLarge ∧
    CommandError.fromStatus 0x4 = some CommandError.invalidArguments ∧
    CommandError.fromStatus 0x20 = some CommandError.authenticationRequired ∧
    (s ≠ 0x1 → s ≠ 0x2 → s ≠ 0x3 → s ≠ 0x4 → s ≠ 0x20 →
      CommandError.fromStatus s = some (CommandError.unknown s)) := by
  refine ⟨rfl, rfl, rfl, rfl, rfl, ?_⟩
  intro h1 h2 h3 h4 h20
  simp [CommandError.fromStatus, h0, h1, h2, h3, h4, h20]

/-- Witness for C5 at the concrete status 5. -/
theorem c5_witness :
    (5 : Nat) ≠ 0 ∧ (5 : Nat) < 2 ^ 16 ∧
    CommandError.fromStatus 5 = some (CommandError.unknown 5) := by
  refine ⟨by decide, by decide, ?_⟩
  have h := c5_status_code_mapping 5 (by decide) (by decide)
  exact h.2.2.2.2.2 (by decide) (by decide) (by decide) (by decide) (by decide)

/-! ### Claim C10 -/

/-- Claim C10: the `From<u16>` conversion to CommandError is partial: it
panics (modelled as `none`) exactly on the status `0x0000`, and is
panic-free on every nonzero status. -/
theorem c10_from_status_zero_panic (s : Nat) :
    (CommandError.fromStatus s = none ↔ s = 0) ∧
    (s ≠ 0 → ∃ e, CommandError.fromStatus s = some e) := by
  constructor
  · unfold CommandError.fromStatus
    split
    · simp [*]
    · split <;> try simp [*]
      split <;> try simp [*]
      split <;> try simp [*]
      split <;> try simp [*]
      split <;> simp [*]
  · intro h0
    unfold CommandError.fromStatus
    simp only [h0, if_false]
    split <;> try exact ⟨_, rfl⟩
    split <;> try exact ⟨_, rfl⟩
    split <;> try exact ⟨_, rfl⟩
    split <;> try exact ⟨_, rfl⟩
    split <;> exact ⟨_, rfl⟩

/-- Witness for C10 at the concrete statuses 0 and 7. -/
theorem c10_witness :
    CommandError.fromStatus 0 = none ∧
    ∃ e, CommandError.fromStatus 7 = some e :=
  ⟨(c10_from_status_zero_panic 0).1.mpr rfl, (c10_from_status_zero_panic 7).2 (by decide)⟩

/-! ### Claim C3 -/

/-- Claim C3 fails on the code: `Client::set_write_timeout` evaluated at an
ascii-protocol TCP connection sets the read timeout and leaves the write
timeout unchanged (client.rs 125 calls `set_read_timeout`), while the
binary arm sets the write timeout and non-stream transports are untouched. -/
theorem c3_write_timeout_bug :
    Client.set_write_timeout
      [{ protocol := ProtocolKind.ascii, stream := Conn.Stream.tcpStream none none },
       { protocol := ProtocolKind.binary, stream := Conn.Stream.tcpStream none none },
       { protocol := ProtocolKind.ascii, stream := Conn.Stream.udpSocket }]
      (some 3)
    = [{ protocol := ProtocolKind.ascii, stream := Conn.Stream.tcpStream (some 3) none },
       { protocol := ProtocolKind.binary, stream := Conn.Stream.tcpStream none (some 3) },
       { protocol := ProtocolKind.ascii, stream := Conn.Stream.udpSocket }] := by
  decide

/-! ### Claim C4 -/

/-- Claim C4 fails on the code: `Connection::connect` rejects the scheme
`memcache+udp` (connection.rs 32 accepts only the exact scheme `memcache`),
the very URL the crate's own `udp_test` (tests/tests.rs 62) connects to,
while `memcache://...?udp=true` does select the UDP transport. -/
theorem c4_udp_scheme_bug :
    Conn.connect { scheme := "memcache+udp", host := some "localhost",
                   port := some 22345, path := "", queryPairs := [] }
      = Except.error (Ascii.MemcacheError.clientError
          "memcache URL should start with memcache://") ∧
    Conn.connect { scheme := "memcache", host := some "localhost",
                   port := some 22345, path := "", queryPairs := [("udp", "true")] }
      = Except.ok Conn.Transport.udp :=
  ⟨rfl, rfl⟩

/-! ### Claim C7 -/

/-- Claim C7: for a Client with a non-empty pool list, the connection index
for a key is `hash_function(key) mod num_pools`; it is a valid index,
`get_connection` returns exactly the pool at that index, and the index is
determined by the pool count and the hash of that key alone, so it does not
depend on the presence of any other key. -/
theorem c7_key_routing (c : Client) (key : String) (h : c.connections ≠ []) :
    c.hash_key key = c.hashFunction key % c.connections.length ∧
    c.hash_key key < c.connections.length ∧
    c.get_connection key = c.connections.get? (c.hash_key key) ∧
    (∀ c' : Client, c'.connections.length = c.connections.length →
      c'.hashFunction key = c.hashFunction key →
      c'.hash_key key = c.hash_key key) := by
  refine ⟨rfl, ?_, rfl, ?_⟩
  · exact Nat.mod_lt _ (List.length_pos.mpr h)
  · intro c' hlen hhash
    unfold Client.hash_key
    rw [hlen, hhash]

/-- Appending the empty string on the left is the identity. -/
theorem string_empty_append (s : String) : "" ++ s = s := by
  cases s with
  | mk l => rfl

/-- String concatenation is associative. -/
theorem string_append_assoc (a b c : String) : a ++ b ++ c = a ++ (b ++ c) := by
  cases a with
  | mk la =>
    cases b with
    | mk lb =>
      cases c with
      | mk lc =>
        show String.mk (la ++ lb ++ lc) = String.mk (la ++ (lb ++ lc))
        rw [List.append_assoc]

/-- With a legal key, `noreply` unset, and a cas token present whenever the
command is `cas`, the result of `store` is the interpretation of the reply
line read from the stream. -/
theorem store_snd (cmd : Ascii.StoreCommand) (key : String) (v : Ascii.MValue)
    (opts : Ascii.Options) (w : List Char)
    (hk : key.utf8ByteSize ≤ 250) (hnr : opts.noreply = false)
    (hcs : cmd = Ascii.StoreCommand.cas → opts.cas ≠ none) :
    (Ascii.store cmd key v opts w).2 = Ascii.storeReply (readLine w).1 := by
  have hif : ¬ (key.utf8ByteSize > 250) := by omega
  obtain ⟨nr, et, fl, cs⟩ := opts
  simp only at hnr
  subst hnr
  cases cmd <;> cases cs
  case cas.none => exact absurd (hcs rfl) (by simp)
  all_goals (simp only [Ascii.store]; rw [if_neg hif]; rfl)

/-- Witness for C7 on a concrete two-pool client. -/
theorem c7_witness :
    (Client.mk [Pool.mk "memcache://a:1", Pool.mk "memcache://b:2"]
      (fun s => s.length)).hash_key "abc" <
      (Client.mk [Pool.mk "memcache://a:1", Pool.mk "memcache://b:2"]
        (fun s => s.length)).connections.length := by
  exact (c7_key_routing
    (Client.mk [Pool.mk "memcache://a:1", Pool.mk "memcache://b:2"]
      (fun s => s.length)) "abc" (by simp)).2.1

/-! ### Claim C2 -/

set_option maxRecDepth 4000 in
/-- Claim C2 fails on the code: the ascii `get` operation performs no key
length check, so at a concrete 251-byte key it writes the request line
(carrying the key) to the stream rather than failing with a Client error
before any I/O. -/
theorem c2_counterexample :
    250 < longKey.utf8ByteSize ∧
    (Ascii.get longKey []).1 = "get " ++ longKey ++ "\r\n" ∧
    (Ascii.get longKey []).1 ≠ "" := by
  refine ⟨by decide, rfl, by decide⟩

/-- Claim C2 (amended): every key-taking operation except `get` and `gets`
(that is: the store family set, add, replace, append, prepend, cas, and
delete, increment, decrement, touch) fails with the Client error
`key is too long` and writes nothing when the key exceeds 250 bytes;
`get` and `gets` perform no key-length check and write the request line
carrying the key to the stream. -/
theorem c2_amended_key_length (key : String) (hk : 250 < key.utf8ByteSize)
    (cmd : Ascii.StoreCommand) (v : Ascii.MValue) (opts : Ascii.Options)
    (exp amount casid : Nat) (w : List Char) :
    Ascii.store cmd key v opts w
      = ("", Except.error (Ascii.MemcacheError.clientError "key is too long")) ∧
    Ascii.set key v exp w
      = ("", Except.error (Ascii.MemcacheError.clientError "key is too long")) ∧
    Ascii.add key v exp w
      = ("", Except.error (Ascii.MemcacheError.clientError "key is too long")) ∧
    Ascii.replace key v exp w
      = ("", Except.error (Ascii.MemcacheError.clientError "key is too long")) ∧
    Ascii.append key v w
      = ("", Except.error (Ascii.MemcacheError.clientError "key is too long")) ∧
    Ascii.prepend key v w
      = ("", Except.error (Ascii.MemcacheError.clientError "key is too long")) ∧
    Ascii.cas key v exp casid w
      = ("", Except.error (Ascii.MemcacheError.clientError "key is too long")) ∧
    Ascii.delete key w
      = ("", Except.error (Ascii.MemcacheError.clientError "key is too long")) ∧
    Ascii.increment key amount w
      = ("", Except.error (Ascii.MemcacheError.clientError "key is too long")) ∧
    Ascii.decrement key amount w
      = ("", Except.error (Ascii.MemcacheError.clientError "key is too long")) ∧
    Ascii.touch key exp w
      = ("", Except.error (Ascii.MemcacheError.clientError "key is too long")) ∧
    (Ascii.get key w).1 = "get " ++ key ++ "\r\n" ∧
    (Ascii.gets [key] w).1 = "gets " ++ key ++ "\r\n" := by
  refine ⟨?_, ?_, ?_, ?_, ?_, ?_, ?_, ?_, ?_, ?_, ?_, rfl, rfl⟩
  · simp [Ascii.store, hk]
  · simp [Ascii.set, Ascii.store, hk, Except.map]
  · simp [Ascii.add, Ascii.store, hk, Except.map]
  · simp [Ascii.replace, Ascii.store, hk, Except.map]
  · simp [Ascii.append, hk]
  · simp [Ascii.prepend, hk]
  · simp [Ascii.cas, Ascii.store, hk]
  · simp [Ascii.delete, hk]
  · simp [Ascii.increment, hk]
  · simp [Ascii.decrement, hk]
  · simp [Ascii.touch, hk]

set_option maxRecDepth 4000 in
/-- Witness for the amended C2 at the concrete 251-byte key. -/
theorem c2_witness :
    Ascii.delete longKey []
      = ("", Except.error (Ascii.MemcacheError.clientError "key is too long")) := by
  have h := c2_amended_key_length longKey (by decide) Ascii.StoreCommand.set
    (Ascii.MValue.mk "v" 0) {} 0 0 0 []
  exact h.2.2.2.2.2.2.2.1

/-! ### Claim C6 -/

/-- Claim C6: with a legal key, a storage command writes exactly the header
line `<cmd> <key> <flags> <exptime> <bytes>`, extended by a space and the
cas token exactly when the command is cas and by ` noreply` exactly when the
noreply option is set, terminated by CRLF, then the payload bytes and CRLF;
and when noreply is set, the session reads no response line (the result
does not depend on the stream) and returns success immediately. -/
theorem c6_store_wire_format (cmd : Ascii.StoreCommand) (key : String)
    (v : Ascii.MValue) (opts : Ascii.Options) (hk : key.utf8ByteSize ≤ 250) :
    (∀ w, cmd ≠ Ascii.StoreCommand.cas →
      (Ascii.store cmd key v opts w).1 =
        cmd.render ++ " " ++ key ++ " " ++ toString v.getFlags ++ " "
          ++ toString opts.exptime ++ " " ++ toString v.getLength
          ++ (if opts.noreply then " noreply" else "") ++ "\r\n"
          ++ v.writeTo ++ "\r\n") ∧
    (∀ w c, opts.cas = some c →
      (Ascii.store Ascii.StoreCommand.cas key v opts w).1 =
        Ascii.StoreCommand.cas.render ++ " " ++ key ++ " " ++ toString v.getFlags ++ " "
          ++ toString opts.exptime ++ " " ++ toString v.getLength
          ++ " " ++ toString c
          ++ (if opts.noreply then " noreply" else "") ++ "\r\n"
          ++ v.writeTo ++ "\r\n") ∧
    (∀ w, opts.noreply = true → (cmd = Ascii.StoreCommand.cas → opts.cas ≠ none) →
      (Ascii.store cmd key v opts w).2 = Except.ok true ∧
      Ascii.store cmd key v opts w = Ascii.store cmd key v opts []) := by
  have hif : ¬ (key.utf8ByteSize > 250) := by omega
  refine ⟨?_, ?_, ?_⟩
  · intro w hcmd
    obtain ⟨nr, et, fl, cs⟩ := opts
    cases cmd
    case cas => exact absurd rfl hcmd
    all_goals
      cases cs <;> (simp only [Ascii.store]; rw [if_neg hif]) <;>
        cases nr <;> simp [string_empty_append]
  · intro w c hc
    obtain ⟨nr, et, fl, cs⟩ := opts
    simp only at hc
    subst hc
    simp only [Ascii.store]
    rw [if_neg hif]
    cases nr <;> simp [string_append_assoc]
  · intro w hnr hcs
    obtain ⟨nr, et, fl, cs⟩ := opts
    simp only at hnr
    subst hnr
    cases cmd <;> cases cs
    case cas.none => exact absurd (hcs rfl) (by simp)
    all_goals
      simp only [Ascii.store]
      refine ⟨?_, ?_⟩
      · rw [if_neg hif]
        try rfl
      · rw [if_neg hif, if_neg hif]
        try rfl

/-- Witness for C6 at a concrete command, key, value and options. -/
theorem c6_witness :
    (Ascii.store Ascii.StoreCommand.set "foo" (Ascii.MValue.mk "bar" 7)
      { exptime := 10 } "STORED\r\n".data).1
      = "set foo 7 10 3\r\nbar\r\n" := by
  have h := c6_store_wire_format Ascii.StoreCommand.set "foo"
    (Ascii.MValue.mk "bar" 7) { exptime := 10 } (by decide)
  have h1 := h.1 "STORED\r\n".data (by decide)
  rw [h1]
  rfl

/-! ### Claim C1 -/

/-- Claim C1: with a legal key, the session-level ascii `cas` operation
turns the `EXISTS\r\n` and `NOT_FOUND\r\n` replies into `Ok(false)` and
never returns the key-exists or key-not-found status as an error, while
every other store operation (set, add, replace, append, prepend) surfaces
those replies as the error for that status; the corresponding Command
errors of those statuses are KeyExists and KeyNotFound. -/
theorem c1_cas_soft_fail (key : String) (v : Ascii.MValue) (exp casid : Nat)
    (hk : key.utf8ByteSize ≤ 250) :
    (Ascii.cas key v exp casid "EXISTS\r\n".data).2 = Except.ok false ∧
    (Ascii.cas key v exp casid "NOT_FOUND\r\n".data).2 = Except.ok false ∧
    (∀ w e, (Ascii.cas key v exp casid w).2 = Except.error e →
      e ≠ Ascii.MemcacheError.fromStatus ResponseStatus.keyExists.toU16 ∧
      e ≠ Ascii.MemcacheError.fromStatus ResponseStatus.keyNotFound.toU16) ∧
    (Ascii.set key v exp "EXISTS\r\n".data).2
      = Except.error (Ascii.MemcacheError.fromStatus ResponseStatus.keyExists.toU16) ∧
    (Ascii.set key v exp "NOT_FOUND\r\n".data).2
      = Except.error (Ascii.MemcacheError.fromStatus ResponseStatus.keyNotFound.toU16) ∧
    (Ascii.add key v exp "EXISTS\r\n".data).2
      = Except.error (Ascii.MemcacheError.fromStatus ResponseStatus.keyExists.toU16) ∧
    (Ascii.add key v exp "NOT_FOUND\r\n".data).2
      = Except.error (Ascii.MemcacheError.fromStatus ResponseStatus.keyNotFound.toU16) ∧
    (Ascii.replace key v exp "EXISTS\r\n".data).2
      = Except.error (Ascii.MemcacheError.fromStatus ResponseStatus.keyExists.toU16) ∧
    (Ascii.replace key v exp "NOT_FOUND\r\n".data).2
      = Except.error (Ascii.MemcacheError.fromStatus ResponseStatus.keyNotFound.toU16) ∧
    (Ascii.append key v "EXISTS\r\n".data).2
      = Except.error (Ascii.MemcacheError.fromStatus ResponseStatus.keyExists.toU16) ∧
    (Ascii.append key v "NOT_FOUND\r\n".data).2
      = Except.error (Ascii.MemcacheError.fromStatus ResponseStatus.keyNotFound.toU16) ∧
    (Ascii.prepend key v "EXISTS\r\n".data).2
      = Except.error (Ascii.MemcacheError.fromStatus ResponseStatus.keyExists.toU16) ∧
    (Ascii.prepend key v "NOT_FOUND\r\n".data).2
      = Except.error (Ascii.MemcacheError.fromStatus ResponseStatus.keyNotFound.toU16) ∧
    CommandError.fromStatus ResponseStatus.keyExists.toU16 = some CommandError.keyExists ∧
    CommandError.fromStatus ResponseStatus.keyNotFound.toU16 = some CommandError.keyNotFound := by
  have hif : ¬ (key.utf8ByteSize > 250) := by omega
  have hcsSome : Ascii.StoreCommand.cas = Ascii.StoreCommand.cas →
      ({ exptime := exp, cas := some casid } : Ascii.Options).cas ≠ none := by
    intro _
    simp
  have hcsNot : ∀ cmd, cmd ≠ Ascii.StoreCommand.cas →
      ∀ opts : Ascii.Options, cmd = Ascii.StoreCommand.cas → opts.cas ≠ none := by
    intro cmd hne opts h
    exact absurd h hne
  refine ⟨?_, ?_, ?_, ?_, ?_, ?_, ?_, ?_, ?_, ?_, ?_, ?_, ?_, rfl, rfl⟩
  · simp only [Ascii.cas]
    rw [store_snd _ key v _ _ hk rfl hcsSome]
    rfl
  · simp only [Ascii.cas]
    rw [store_snd _ key v _ _ hk rfl hcsSome]
    rfl
  · intro w e he
    rcases hsr : (Ascii.store Ascii.StoreCommand.cas key v
        { exptime := exp, cas := some casid } w).2 with e' | t
    · simp only [Ascii.cas] at he
      rw [hsr] at he
      rcases e' with _ | _ | msg | code | msg2 | _
      · simp at he
        subst he
        exact ⟨by simp [Ascii.MemcacheError.fromStatus], by simp [Ascii.MemcacheError.fromStatus]⟩
      · simp at he
        subst he
        exact ⟨by simp [Ascii.MemcacheError.fromStatus], by simp [Ascii.MemcacheError.fromStatus]⟩
      · simp at he
        subst he
        exact ⟨by simp [Ascii.MemcacheError.fromStatus], by simp [Ascii.MemcacheError.fromStatus]⟩
      · by_cases hc : code = ResponseStatus.keyExists.toU16 ∨
            code = ResponseStatus.keyNotFound.toU16
        · simp [hc] at he
        · simp [hc] at he
          subst he
          rw [not_or] at hc
          refine ⟨fun hx => ?_, fun hx => ?_⟩
          · unfold Ascii.MemcacheError.fromStatus at hx
            injection hx with h
            exact hc.1 h
          · unfold Ascii.MemcacheError.fromStatus at hx
            injection hx with h
            exact hc.2 h
      · simp at he
        subst he
        exact ⟨by simp [Ascii.MemcacheError.fromStatus], by simp [Ascii.MemcacheError.fromStatus]⟩
      · simp at he
        subst he
        exact ⟨by simp [Ascii.MemcacheError.fromStatus], by simp [Ascii.MemcacheError.fromStatus]⟩
    · simp only [Ascii.cas] at he
      rw [hsr] at he
      simp at he
  · simp only [Ascii.set]
    rw [store_snd _ key v _ _ hk rfl (hcsNot _ (by decide) _)]
    rfl
  · simp only [Ascii.set]
    rw [store_snd _ key v _ _ hk rfl (hcsNot _ (by decide) _)]
    rfl
  · simp only [Ascii.add]
    rw [store_snd _ key v _ _ hk rfl (hcsNot _ (by decide) _)]
    rfl
  · simp only [Ascii.add]
    rw [store_snd _ key v _ _ hk rfl (hcsNot _ (by decide) _)]
    rfl
  · simp only [Ascii.replace]
    rw [store_snd _ key v _ _ hk rfl (hcsNot _ (by decide) _)]
    rfl
  · simp only [Ascii.replace]
    rw [store_snd _ key v _ _ hk rfl (hcsNot _ (by decide) _)]
    rfl
  · simp only [Ascii.append]
    rw [if_neg hif]
    rw [store_snd _ key v _ _ hk rfl (hcsNot _ (by decide) _)]
    rfl
  · simp only [Ascii.append]
    rw [if_neg hif]
    rw [store_snd _ key v _ _ hk rfl (hcsNot _ (by decide) _)]
    rfl
  · simp only [Ascii.prepend]
    rw [if_neg hif]
    rw [store_snd _ key v _ _ hk rfl (hcsNot _ (by decide) _)]
    rfl
  · simp only [Ascii.prepend]
    rw [if_neg hif]
    rw [store_snd _ key v _ _ hk rfl (hcsNot _ (by decide) _)]
    rfl

/-- Witness for C1 at a concrete key, value and cas token. -/
theorem c1_witness :
    (Ascii.cas "ascii_foo" (Ascii.MValue.mk "bar3" 0) 0 42 "EXISTS\r\n".data).2
      = Except.ok false :=
  (c1_cas_soft_fail "ascii_foo" (Ascii.MValue.mk "bar3" 0) 0 42 (by decide)).1

/-! ### Claim C9 -/

/-- Claim C9: the reply-line error mapping takes exactly the line
`ERROR\r\n` to the invalid-command Command error, a line starting with
`CLIENT_ERROR` to a Client error carrying the message, and a line starting
with `SERVER_ERROR` to a Server error carrying the message - both in
`MemcacheError::try_from` and in the ascii session's line mapping;
`is_memcache_error` recognizes exactly those three classes, and every
text-protocol operation of ascii.rs (the store family set, add, replace,
append, prepend and cas via `store`, and get, gets, delete, increment,
decrement, touch, version, flush, flush_with_delay, stats, and auth via
`set`) returns the mapped error whenever the reply line it reads is such
an error line, before interpreting it as a normal response. -/
theorem c9_error_line_mapping :
    MemcacheError.tryFrom "ERROR\r\n"
      = Except.error (MemcacheError.commandError CommandError.invalidCommand) ∧
    (∀ s, strStartsWith s "CLIENT_ERROR" = true →
      MemcacheError.tryFrom s
        = Except.error (MemcacheError.clientError (ClientError.error s))) ∧
    (∀ s, strStartsWith s "SERVER_ERROR" = true →
      MemcacheError.tryFrom s
        = Except.error (MemcacheError.serverError (ServerError.error s))) ∧
    (∀ s, Ascii.is_memcache_error s = true ↔
      (s = "ERROR\r\n" ∨ strStartsWith s "CLIENT_ERROR" = true ∨
        strStartsWith s "SERVER_ERROR" = true)) ∧
    Ascii.MemcacheError.fromLine "ERROR\r\n" = Ascii.MemcacheError.invalidCommand ∧
    (∀ s, strStartsWith s "CLIENT_ERROR" = true →
      Ascii.MemcacheError.fromLine s = Ascii.MemcacheError.clientError s) ∧
    (∀ s, strStartsWith s "SERVER_ERROR" = true →
      Ascii.MemcacheError.fromLine s = Ascii.MemcacheError.serverError s) ∧
    (∀ cmd key v opts w, key.utf8ByteSize ≤ 250 → opts.noreply = false →
      (cmd = Ascii.StoreCommand.cas → opts.cas ≠ none) →
      Ascii.is_memcache_error (readLine w).1 = true →
      (Ascii.store cmd key v opts w).2
        = Except.error (Ascii.MemcacheError.fromLine (readLine w).1)) ∧
    (∀ key w, Ascii.is_memcache_error (readLine w).1 = true →
      (Ascii.get key w).2
        = Except.error (Ascii.MemcacheError.fromLine (readLine w).1)) ∧
    (∀ keys w, Ascii.is_memcache_error (readLine w).1 = true →
      (Ascii.gets keys w).2
        = Except.error (Ascii.MemcacheError.fromLine (readLine w).1)) ∧
    (∀ key w, key.utf8ByteSize ≤ 250 → Ascii.is_memcache_error (readLine w).1 = true →
      (Ascii.delete key w).2
        = Except.error (Ascii.MemcacheError.fromLine (readLine w).1)) ∧
    (∀ key n w, key.utf8ByteSize ≤ 250 → Ascii.is_memcache_error (readLine w).1 = true →
      (Ascii.increment key n w).2
          = Except.error (Ascii.MemcacheError.fromLine (readLine w).1) ∧
      (Ascii.decrement key n w).2
          = Except.error (Ascii.MemcacheError.fromLine (readLine w).1) ∧
      (Ascii.touch key n w).2
          = Except.error (Ascii.MemcacheError.fromLine (readLine w).1)) ∧
    (∀ w, Ascii.is_memcache_error (readLine w).1 = true →
      (Ascii.version w).2
          = Except.error (Ascii.MemcacheError.fromLine (readLine w).1) ∧
      (Ascii.flush w).2
          = Except.error (Ascii.MemcacheError.fromLine (readLine w).1) ∧
      (∀ d, (Ascii.flushWithDelay d w).2
          = Except.error (Ascii.MemcacheError.fromLine (readLine w).1))) ∧
    (∀ w, Ascii.is_memcache_error (readLine w).1 = true →
      (Ascii.stats w).2
          = Except.error (Ascii.MemcacheError.fromLine (readLine w).1)) ∧
    (∀ username password w, Ascii.is_memcache_error (readLine w).1 = true →
      (Ascii.auth username password w).2
          = Except.error (Ascii.MemcacheError.fromLine (readLine w).1)) := by
  refine ⟨rfl, ?_, ?_, ?_, rfl, ?_, ?_, ?_, ?_, ?_, ?_, ?_, ?_, ?_, ?_⟩
  · intro s h
    unfold MemcacheError.tryFrom
    rw [if_neg (client_line_ne_error h), if_pos h]
  · intro s h
    have hcf : ¬ (strStartsWith s "CLIENT_ERROR" = true) := by
      rw [server_line_not_client h]
      exact Bool.false_ne_true
    unfold MemcacheError.tryFrom
    rw [if_neg (server_line_ne_error h), if_neg hcf, if_pos h]
  · intro s
    simp [Ascii.is_memcache_error, Bool.or_eq_true, beq_iff_eq, or_assoc]
  · intro s h
    unfold Ascii.MemcacheError.fromLine
    rw [if_neg (client_line_ne_error h), if_pos h]
  · intro s h
    have hcf : ¬ (strStartsWith s "CLIENT_ERROR" = true) := by
      rw [server_line_not_client h]
      exact Bool.false_ne_true
    unfold Ascii.MemcacheError.fromLine
    rw [if_neg (server_line_ne_error h), if_neg hcf, if_pos h]
  · intro cmd key v opts w hk hnr hcs hline
    rw [store_snd cmd key v opts w hk hnr hcs]
    unfold Ascii.storeReply
    rw [if_pos hline]
  · intro key w hline
    simp [Ascii.get, hline]
  · intro keys w hline
    unfold Ascii.gets Ascii.getsLoop
    simp [hline]
  · intro key w hk hline
    have hif : ¬ (key.utf8ByteSize > 250) := by omega
    simp [Ascii.delete, hif, hline]
  · intro key n w hk hline
    have hif : ¬ (key.utf8ByteSize > 250) := by omega
    exact ⟨by simp [Ascii.increment, hif, hline],
           by simp [Ascii.decrement, hif, hline],
           by simp [Ascii.touch, hif, hline]⟩
  · intro w hline
    exact ⟨by simp [Ascii.version, hline],
           by simp [Ascii.flush, hline],
           fun d => by simp [Ascii.flushWithDelay, hline]⟩
  · intro w hline
    unfold Ascii.stats Ascii.statsLoop
    simp [hline]
  · intro username password w hline
    simp only [Ascii.auth, Ascii.set]
    rw [store_snd Ascii.StoreCommand.set "auth"
      (Ascii.MValue.mk (username ++ " " ++ password) 0) { exptime := 0 } w
      (by decide) rfl (fun h => absurd h (by decide))]
    unfold Ascii.storeReply
    rw [if_pos hline]
    rfl

/-- Witness for C9 at a concrete server-error reply line. -/
theorem c9_witness :
    MemcacheError.tryFrom "SERVER_ERROR out of memory\r\n"
      = Except.error (MemcacheError.serverError
          (ServerError.error "SERVER_ERROR out of memory\r\n")) :=
  c9_error_line_mapping.2.2.1 "SERVER_ERROR out of memory\r\n" (by decide)

/-! ### Claim C8 -/

/-- Pushing a key into its bucket appends it, up to permutation, to the
flattened grouping. -/
theorem pushEntry_flatten (m : List (Nat × List String)) (i : Nat) (k : String) :
    ((pushEntry m i k).map Prod.snd).flatten.Perm
      ((m.map Prod.snd).flatten ++ [k]) := by
  induction m with
  | nil => simp [pushEntry]
  | cons hd tl ih =>
    obtain ⟨j, l⟩ := hd
    by_cases h : j = i
    · subst h
      rw [show pushEntry ((j, l) :: tl) j k = (j, l ++ [k]) :: tl from by
        simp [pushEntry]]
      simp only [List.map_cons, List.flatten_cons]
      have e1 : (l ++ [k]) ++ (tl.map Prod.snd).flatten
          = l ++ ([k] ++ (tl.map Prod.snd).flatten) := by rw [List.append_assoc]
      have e2 : (l ++ (tl.map Prod.snd).flatten) ++ [k]
          = l ++ ((tl.map Prod.snd).flatten ++ [k]) := by rw [List.append_assoc]
      rw [e1, e2]
      exact List.Perm.append_left l List.perm_append_comm
    · rw [show pushEntry ((j, l) :: tl) i k = (j, l) :: pushEntry tl i k from by
        simp [pushEntry, h]]
      simp only [List.map_cons, List.flatten_cons]
      have e2 : (l ++ (tl.map Prod.snd).flatten) ++ [k]
          = l ++ ((tl.map Prod.snd).flatten ++ [k]) := by rw [List.append_assoc]
      rw [e2]
      exact List.Perm.append_left l ih

/-- Folding the grouping loop over a key list appends the keys, up to
permutation, to the flattened accumulator. -/
theorem groupKeys_flatten_aux (f : String → Nat) (ks : List String) :
    ∀ m : List (Nat × List String),
      ((ks.foldl (fun m k => pushEntry m (f k) k) m).map Prod.snd).flatten.Perm
        ((m.map Prod.snd).flatten ++ ks) := by
  induction ks with
  | nil => intro m; simp
  | cons k ks ih =>
    intro m
    simp only [List.foldl_cons]
    have h1 := ih (pushEntry m (f k) k)
    have h2 := (pushEntry_flatten m (f k) k).append_right ks
    have h3 : ((m.map Prod.snd).flatten ++ [k]) ++ ks
        = (m.map Prod.snd).flatten ++ (k :: ks) := by simp
    rw [h3] at h2
    exact h1.trans h2

/-- An element-wise invariant of the buckets is preserved by `pushEntry`. -/
theorem pushEntry_forall {P : Nat → String → Prop}
    {m : List (Nat × List String)} {i : Nat} {k : String}
    (hm : ∀ p ∈ m, ∀ x ∈ p.2, P p.1 x) (hk : P i k) :
    ∀ p ∈ pushEntry m i k, ∀ x ∈ p.2, P p.1 x := by
  induction m with
  | nil =>
    intro p hp x hx
    simp only [pushEntry, List.mem_singleton] at hp
    subst hp
    simp only [List.mem_singleton] at hx
    subst hx
    exact hk
  | cons hd tl ih =>
    obtain ⟨j, l⟩ := hd
    by_cases h : j = i
    · subst h
      intro p hp x hx
      rw [show pushEntry ((j, l) :: tl) j k = (j, l ++ [k]) :: tl from by
        simp [pushEntry], List.mem_cons] at hp
      rcases hp with hp | hp
      · subst hp
        simp only [List.mem_append, List.mem_singleton] at hx
        rcases hx with hx | hx
        · exact hm (j, l) (List.mem_cons_self _ _) x hx
        · subst hx
          exact hk
      · exact hm p (List.mem_cons_of_mem _ hp) x hx
    · intro p hp x hx
      rw [show pushEntry ((j, l) :: tl) i k = (j, l) :: pushEntry tl i k from by
        simp [pushEntry, h], List.mem_cons] at hp
      rcases hp with hp | hp
      · subst hp
        exact hm (j, l) (List.mem_cons_self _ _) x hx
      · exact ih (fun q hq => hm q (List.mem_cons_of_mem _ hq)) p hp x hx

/-- An invariant of the bucket indices is preserved by `pushEntry`. -/
theorem pushEntry_fst {Q : Nat → Prop} {m : List (Nat × List String)} {i : Nat}
    {k : String} (hm : ∀ p ∈ m, Q p.1) (hi : Q i) :
    ∀ p ∈ pushEntry m i k, Q p.1 := by
  induction m with
  | nil =>
    intro p hp
    simp only [pushEntry, List.mem_singleton] at hp
    subst hp
    exact hi
  | cons hd tl ih =>
    obtain ⟨j, l⟩ := hd
    by_cases h : j = i
    · subst h
      intro p hp
      rw [show pushEntry ((j, l) :: tl) j k = (j, l ++ [k]) :: tl from by
        simp [pushEntry], List.mem_cons] at hp
      rcases hp with hp | hp
      · subst hp
        exact hi
      · exact hm p (List.mem_cons_of_mem _ hp)
    · intro p hp
      rw [show pushEntry ((j, l) :: tl) i k = (j, l) :: pushEntry tl i k from by
        simp [pushEntry, h], List.mem_cons] at hp
      rcases hp with hp | hp
      · subst hp
        exact hm (j, l) (List.mem_cons_self _ _)
      · exact ih (fun q hq => hm q (List.mem_cons_of_mem _ hq)) p hp

/-- The element-wise bucket invariant holds after folding the grouping loop. -/
theorem groupKeys_forall_aux {P : Nat → String → Prop} (f : String → Nat) :
    ∀ (ks : List String) (m : List (Nat × List String)),
      (∀ p ∈ m, ∀ x ∈ p.2, P p.1 x) → (∀ k ∈ ks, P (f k) k) →
      ∀ p ∈ ks.foldl (fun m k => pushEntry m (f k) k) m, ∀ x ∈ p.2, P p.1 x := by
  intro ks
  induction ks with
  | nil => intro m hm _ p hp; exact hm p hp
  | cons k ks ih =>
    intro m hm hks
    simp only [List.foldl_cons]
    exact ih (pushEntry m (f k) k)
      (pushEntry_forall hm (hks k (List.mem_cons_self _ _)))
      (fun x hx => hks x (List.mem_cons_of_mem _ hx))

/-- The bucket-index invariant holds after folding the grouping loop. -/
theorem groupKeys_fst_aux {Q : Nat → Prop} (f : String → Nat) :
    ∀ (ks : List String) (m : List (Nat × List String)),
      (∀ p ∈ m, Q p.1) → (∀ k ∈ ks, Q (f k)) →
      ∀ p ∈ ks.foldl (fun m k => pushEntry m (f k) k) m, Q p.1 := by
  intro ks
  induction ks with
  | nil => intro m hm _ p hp; exact hm p hp
  | cons k ks ih =>
    intro m hm hks
    simp only [List.foldl_cons]
    exact ih (pushEntry m (f k) k)
      (pushEntry_fst hm (hks k (List.mem_cons_self _ _)))
      (fun x hx => hks x (List.mem_cons_of_mem _ hx))

/-- Claim C8: concatenating the key groups that `Client::gets` and
`Client::deletes` build - in any iteration order of the bucket map - yields
a permutation of the input key list, every key in the bucket of index `i`
hashes to `i`, and with a non-empty pool list every bucket index is a valid
connection index. -/
theorem c8_batch_grouping (c : Client) (keys : List String) :
    (∀ gs : List (Nat × List String), gs.Perm (c.groupKeys keys) →
      (gs.map Prod.snd).flatten.Perm keys) ∧
    (∀ p ∈ c.groupKeys keys, ∀ k ∈ p.2, c.hash_key k = p.1) ∧
    (c.connections ≠ [] → ∀ p ∈ c.groupKeys keys, p.1 < c.connections.length) := by
  refine ⟨?_, ?_, ?_⟩
  · intro gs hgs
    have h1 : (gs.map Prod.snd).flatten.Perm
        (((c.groupKeys keys).map Prod.snd).flatten) :=
      (hgs.map Prod.snd).flatten
    have h2 := groupKeys_flatten_aux (fun k => c.hash_key k) keys []
    simp only [List.map_nil, List.flatten_nil, List.nil_append] at h2
    exact h1.trans h2
  · exact @groupKeys_forall_aux (fun i x => c.hash_key x = i)
      (fun k => c.hash_key k) keys []
      (fun p hp => absurd hp (List.not_mem_nil p)) (fun k _ => rfl)
  · intro hne
    exact @groupKeys_fst_aux (fun i => i < c.connections.length)
      (fun k => c.hash_key k) keys []
      (fun p hp => absurd hp (List.not_mem_nil p))
      (fun k _ => Nat.mod_lt _ (List.length_pos.mpr hne))

/-- Witness for C8 on a concrete client and key list. -/
theorem c8_witness :
    (((Client.mk [Pool.mk "memcache://a:1", Pool.mk "memcache://b:2"]
        (fun s => s.length)).groupKeys ["a", "bb", "c", "ddd"]).map
      Prod.snd).flatten.Perm ["a", "bb", "c", "ddd"] :=
  (c8_batch_grouping
    (Client.mk [Pool.mk "memcache://a:1", Pool.mk "memcache://b:2"]
      (fun s => s.length)) ["a", "bb", "c", "ddd"]).1 _ (List.Perm.refl _)

end Memcache
